import Mathlib

/-
Verification of dnohales/kolibri-installer-mac against its specification.

The development shallowly embeds the two Python source files:
  * src/main.py  (application shell: LoggerWriter, locale handling, loading-page
    resolution, window list, URL policy, page_loaded, wait_for_server)
  * tools/stdlib.py (build-time standard-library import generator)

Python strings are modelled as Lean `String` (a wrapper around `List Char`);
string primitives used by the code (startswith, endswith, split, replace,
substring containment) are embedded as executable functions on the character
data so that every definition evaluates on concrete inputs.
-/

/-! ## Python string primitives -/

/-- Python `s.startswith(p)`. -/
def py_startswith (s p : String) : Bool :=
  p.data.isPrefixOf s.data

/-- Python `s.endswith(p)`. -/
def py_endswith (s p : String) : Bool :=
  p.data.isSuffixOf s.data

/-- Python `s.split(sep)[0]` for a one-character separator: the characters
before the first occurrence of `sep` (the whole string when `sep` is absent). -/
def py_split_head (s : String) (sep : Char) : String :=
  ⟨s.data.takeWhile (fun c => !(c == sep))⟩

/-- Python `needle in hay` on the character lists (substring containment). -/
def py_sub_in (needle : List Char) : List Char → Bool
  | [] => needle.isEmpty
  | c :: rest => needle.isPrefixOf (c :: rest) || py_sub_in needle rest

/-! ## Constants from src/main.py -/

/-- main.py line 74. -/
def KOLIBRI_ROOT_URL : String := "http://localhost:5000"

/-! ## should_load_url (src/main.py lines 311-316)

`should_load_url` returns a pair: the Bool the Python method returns
(whether the embedded view loads the URL) and whether `webbrowser.open`
was called (the only side effect of the method). -/

def should_load_url (url : String) : Bool × Bool :=
  if py_startswith url "http" && !py_startswith url KOLIBRI_ROOT_URL then
    (false, true)
  else
    (true, false)

/-! ## Loading-page resolution (src/main.py lines 224-233)

The filesystem is a parameter `exists_fs : String → Bool` modelling
`os.path.exists` composed with `os.path.abspath` on the relative asset path. -/

/-- `os.path.join('assets', '_load-{}.html'.format(lang_id))`. -/
def loader_asset (lang_id : String) : String :=
  "assets/_load-" ++ lang_id ++ ".html"

/-- Lines 224-233 of main.py: try the exact tag, then `lang_id.split('-')[0]`,
then the fixed `'en_US'` default (the last without an existence check). -/
def resolve_loader (exists_fs : String → Bool) (lang_id : String) : String :=
  if exists_fs (loader_asset lang_id) then
    loader_asset lang_id
  else if exists_fs (loader_asset (py_split_head lang_id '-')) then
    loader_asset (py_split_head lang_id '-')
  else
    loader_asset "en_US"

/-- The base language of a locale tag: the characters before the first
separator, whichever of `'-'` or `'_'` the tag uses (the spec's
"base language of that tag"). -/
def base_language (lang_id : String) : String :=
  ⟨lang_id.data.takeWhile (fun c => !(c == '-') && !(c == '_'))⟩

/-- Modelled from the spec: the claimed resolution chain "exact locale tag,
then base language of that tag, then the fixed default language", picking the
first asset in that order whose file exists. -/
def resolve_loader_claimed (exists_fs : String → Bool) (lang_id : String) : String :=
  if exists_fs (loader_asset lang_id) then
    loader_asset lang_id
  else if exists_fs (loader_asset (base_language lang_id)) then
    loader_asset (base_language lang_id)
  else
    loader_asset "en_US"

/-- A filesystem holding a base-language asset for `pt` and the default asset,
but no asset for the exact tag `pt_BR`. -/
def exFS : String → Bool := fun p =>
  p == "assets/_load-pt.html" || p == "assets/_load-en_US.html"

/-! ## Locale info (src/main.py lines 122-135 and setUp line 225)

`gettext.translation('macapp', dir, languages, fallback=True)` either finds a
catalog (returning its metadata dictionary via `t.info()`), finds none (with
`fallback=True` it returns `NullTranslations`, whose `info()` is the empty
dictionary — no exception is raised), or raises. Only the raising case runs
the `except` branch of lines 128-133. -/

inductive TranslationResult where
  | found (info : List (String × String))
  | missing
  | raised
deriving DecidableEq

/-- The module-level `try/except` of lines 122-133: the value of the
`locale_info` dictionary afterwards. -/
def compute_locale_info : TranslationResult → List (String × String)
  | TranslationResult.found info => info
  | TranslationResult.missing => []
  | TranslationResult.raised => [("language", "en_US")]

/-- Python `d[k]` on a dictionary modelled as an association list:
`none` models an uncaught `KeyError`. -/
def dictGet (d : List (String × String)) (k : String) : Option String :=
  (d.find? (fun p => p.1 == k)).map Prod.snd

/-- `setUp` line 225: `lang_id = locale_info['language']`; `none` means the
lookup raises `KeyError` and startup crashes before any loading page shows. -/
def setUp_lang_id (li : List (String × String)) : Option String :=
  dictGet li "language"

/-! ## Window list (src/main.py lines 154-159 and 201-215)

Window handles are modelled as natural numbers; `app.windows` is the list. -/

/-- `MenuEventHandler.on_new_window`: `app.windows.append(window)`. -/
def on_new_window (windows : List Nat) (w : Nat) : List Nat :=
  windows ++ [w]

/-- `KolibriView.shutdown`: remove this window from the list; the Bool is
whether `super().shutdown()` (process-exit eligibility) runs, which happens
exactly when no window remains. -/
def shutdown_window (windows : List Nat) (w : Nat) : List Nat × Bool :=
  (windows.erase w, (windows.erase w).isEmpty)

/-! ## Standard-library import generator (tools/stdlib.py)

The directory walk is modelled by its flattened output: the list of paths of
the files found under the standard-library root, relative to that root
(`os.path.join(top, nm)[len(std_lib)+1:]`), with `'/'` as `os.sep`. -/

/-- tools/stdlib.py lines 6-19. -/
def excludes : List String :=
  ["site-packages", "test", "encodings", "python-config", "__phello__",
   "__init__.py", "this", "distutils", "antigravity", "tkinter", "idlelib",
   "venv.__init__"]

/-- Line 38: strip the last three characters (`[:-3]`) and replace the path
separator with `'.'`. -/
def module_path (relpath : String) : String :=
  ⟨(relpath.data.take (relpath.data.length - 3)).map
    (fun c => if c == '/' then '.' else c)⟩

/-- Lines 39-42: the exclusion loop — any entry of `excludes` occurring as a
substring of the dotted module path excludes it. -/
def is_excluded (mp : String) : Bool :=
  excludes.any (fun ex => py_sub_in ex.data mp.data)

/-- Lines 44-49: the per-module best-effort import block appended to the
script (the second `.format` argument of the source is unused). -/
def import_stmt (mp : String) : String :=
  "\ntry:\n    import " ++ mp ++ "\nexcept:\n    pass\n    "

/-- Lines 35-49: the `script` string accumulated over the walked files. -/
def generate_stdlib_imports (files : List String) : String :=
  files.foldl
    (fun script nm =>
      if py_endswith nm ".py" && !is_excluded (module_path nm) then
        script ++ import_stmt (module_path nm)
      else script)
    ""

/-! ## page_loaded (src/main.py lines 318-329)

State is the `kolibri_loaded` flag; the second component of the result is
whether `self.view.clear_history()` was called on that delegate callback. -/

def page_loaded (loader_url : String) (kolibri_loaded : Bool) (url : String) :
    Bool × Bool :=
  if !kolibri_loaded && !(url == loader_url) then (true, true)
  else (kolibri_loaded, false)

/-- A run of `page_loaded` callbacks: the per-call clear-history flags and
the final `kolibri_loaded` flag. -/
def page_loaded_run (loader_url : String) (kolibri_loaded : Bool) :
    List String → List Bool × Bool
  | [] => ([], kolibri_loaded)
  | u :: us =>
    ((page_loaded loader_url kolibri_loaded u).2 ::
       (page_loaded_run loader_url (page_loaded loader_url kolibri_loaded u).1 us).1,
     (page_loaded_run loader_url (page_loaded loader_url kolibri_loaded u).1 us).2)

/-! ## LoggerWriter (src/main.py lines 18-33)

Python strings are embedded as `List Char` here; the writer callback's calls
are collected as the first component of each result. -/

/-- The `while` loop of `LoggerWriter.write` (lines 25-28): as long as the
buffer holds a newline, emit the segment before the first newline
(`self._msg[:pos]`) and keep the remainder (`self._msg[pos+1:]`). -/
def drainBuffer (msg : List Char) : List (List Char) × List Char :=
  if h : '\n' ∈ msg then
    ((msg.take (msg.findIdx (fun c => c == '\n'))) ::
        (drainBuffer (msg.drop (msg.findIdx (fun c => c == '\n') + 1))).1,
     (drainBuffer (msg.drop (msg.findIdx (fun c => c == '\n') + 1))).2)
  else ([], msg)
termination_by msg.length
decreasing_by
  all_goals
    simp only [List.length_drop]
    have hlt : msg.findIdx (fun c => c == '\n') < msg.length :=
      List.findIdx_lt_length_of_exists ⟨'\n', h, by simp⟩
    omega

/-- The `_msg` buffer of a `LoggerWriter`. -/
structure LoggerWriter where
  msg : List Char

/-- `LoggerWriter.write` (lines 23-28): append the message to the buffer,
then drain every complete line to the writer. -/
def LoggerWriter.write (w : LoggerWriter) (message : List Char) :
    List (List Char) × LoggerWriter :=
  ((drainBuffer (w.msg ++ message)).1, ⟨(drainBuffer (w.msg ++ message)).2⟩)

/-- `LoggerWriter.flush` (lines 30-33): emit the residue exactly when the
buffer is non-empty, leaving the buffer empty. -/
def LoggerWriter.flush (w : LoggerWriter) : List (List Char) × LoggerWriter :=
  if w.msg = [] then ([], w) else ([w.msg], ⟨[]⟩)

/-- A sequence of `write` calls: all writer invocations in order, and the
final state. -/
def runWrites (w : LoggerWriter) : List (List Char) → List (List Char) × LoggerWriter
  | [] => ([], w)
  | m :: ms =>
    ((w.write m).1 ++ (runWrites (w.write m).2 ms).1,
     (runWrites (w.write m).2 ms).2)

/-! ## wait_for_server (src/main.py lines 331-374)

The poller is driven by the outcomes of the successive `running()` probes,
one probe per loop iteration, iterations separated by the one-second
`time.sleep(1)`; each element of the outcome list is the result of one
probe. Events record the observable actions: a probe request, the injected
`show_retry()` / `show_error()` scripts, and a `load_url` navigation. The
saved view state is modelled by the optional value of its `"URL"` key. -/

inductive Event where
  | request
  | showRetry
  | showError
  | navigate (url : String)
deriving DecidableEq

inductive PollOutcome where
  | loaded
  | failed
deriving DecidableEq

/-- `timeout = 20` (main.py line 333). -/
def timeout : Nat := 20

/-- `max_retries = 3` (main.py line 334). -/
def max_retries : Nat := 3

/-- The `while not running():` loop of lines 349-363, with `time_spent` and
`load_retries` as state (`time_spent` is incremented after each failed probe
and compared against the timeout; on a timeout below the retry cap it resets
to zero). `none` means the outcome list ended before the loop resolved. -/
def pollLoop : List Bool → Nat → Nat → List Event × Option PollOutcome
  | [], _, _ => ([], none)
  | ok :: rest, time_spent, load_retries =>
    if ok then
      ([Event.request], some PollOutcome.loaded)
    else if time_spent + 1 > timeout then
      if load_retries < max_retries then
        (Event.request :: Event.showRetry :: (pollLoop rest 0 (load_retries + 1)).1,
         (pollLoop rest 0 (load_retries + 1)).2)
      else
        ([Event.request, Event.showError], some PollOutcome.failed)
    else
      (Event.request :: (pollLoop rest (time_spent + 1) load_retries).1,
       (pollLoop rest (time_spent + 1) load_retries).2)

/-- Lines 366-374: the URL handed to `load_url` after the loop succeeds —
the saved URL when present and matching the server origin, else the base
URL. -/
def navigationTarget (saved_url : Option String) : String :=
  match saved_url with
  | some u => if py_startswith u KOLIBRI_ROOT_URL then u else KOLIBRI_ROOT_URL
  | none => KOLIBRI_ROOT_URL

/-- `Application.wait_for_server` (lines 331-374): run the polling loop from
`time_spent = 0`, `load_retries = 0`; on success issue the single
navigation, on failure return with no further action. -/
def wait_for_server (outcomes : List Bool) (saved_url : Option String) :
    List Event × Option PollOutcome :=
  match pollLoop outcomes 0 0 with
  | (evs, some PollOutcome.loaded) =>
      (evs ++ [Event.navigate (navigationTarget saved_url)],
       some PollOutcome.loaded)
  | (evs, r) => (evs, r)

/-- Whether an event is a navigation. -/
def Event.isNavigate : Event → Bool
  | Event.navigate _ => true
  | _ => false

/-- The full event trace when the server never responds within the budget:
four 21-probe periods; the first three end in `show_retry()` (with the
elapsed-time counter reset), the fourth in `show_error()`. -/
def failTrace : List Event :=
  List.replicate 21 Event.request ++ Event.showRetry ::
    (List.replicate 21 Event.request ++ Event.showRetry ::
      (List.replicate 21 Event.request ++ Event.showRetry ::
        (List.replicate 21 Event.request ++ [Event.showError])))

/-! # Theorems -/

/-- Folding string append from any accumulator factors the accumulator out. -/
theorem string_foldl_append (l : List String) : ∀ a : String,
    l.foldl (fun x y => x ++ y) a = a ++ l.foldl (fun x y => x ++ y) "" := by
  induction l with
  | nil =>
    intro a
    simp
  | cons s rest ih =>
    intro a
    simp only [List.foldl_cons]
    rw [ih (a ++ s), ih ("" ++ s), String.empty_append, String.append_assoc]

/-- `String.join` unfolds on a cons. -/
theorem string_join_cons (s : String) (l : List String) :
    String.join (s :: l) = s ++ String.join l := by
  simp only [String.join, List.foldl_cons]
  rw [string_foldl_append l ("" ++ s), String.empty_append]

/-- The generator's fold, from an arbitrary accumulated script. -/
theorem generate_stdlib_foldl_acc (files : List String) : ∀ acc : String,
    files.foldl
      (fun script nm =>
        if py_endswith nm ".py" && !is_excluded (module_path nm) then
          script ++ import_stmt (module_path nm)
        else script)
      acc =
    acc ++ String.join ((files.filter
      (fun nm => py_endswith nm ".py" && !is_excluded (module_path nm))).map
      (fun nm => import_stmt (module_path nm))) := by
  induction files with
  | nil =>
    intro acc
    simp [String.join]
  | cons nm rest ih =>
    intro acc
    rcases h : py_endswith nm ".py" && !is_excluded (module_path nm) with _ | _
    · simp only [List.foldl_cons, h, Bool.false_eq_true, if_false, List.filter_cons,
        ih]
    · simp only [List.foldl_cons, h, if_true, List.filter_cons, List.map_cons,
        string_join_cons, ih, String.append_assoc]

/-- Flag-true runs of `page_loaded` never clear history again. -/
theorem page_loaded_run_true (loader : String) (us : List String) :
    page_loaded_run loader true us = (List.replicate us.length false, true) := by
  induction us with
  | nil => rfl
  | cons u us ih =>
    simp [page_loaded_run, page_loaded, ih, List.replicate]

/-- Claim C8: `should_load_url` returns `false` (and opens the external
browser) exactly when the URL starts with `"http"` but not with the Kolibri
root URL `http://localhost:5000`; every other URL — including the `file://`
loader URL and all server-origin URLs — returns `true` with no external
browser call. -/
theorem should_load_url_spec (url : String) :
    ((should_load_url url).1 = false ↔
      (py_startswith url "http" = true ∧ py_startswith url KOLIBRI_ROOT_URL = false)) ∧
    ((should_load_url url).2 = true ↔ (should_load_url url).1 = false) ∧
    (should_load_url "file:///app/assets/_load-en_US.html").1 = true ∧
    (should_load_url "file:///app/assets/_load-en_US.html").2 = false ∧
    (∀ u : String, py_startswith u KOLIBRI_ROOT_URL = true →
      (should_load_url u).1 = true ∧ (should_load_url u).2 = false) := by
  refine ⟨?_, ?_, by decide, by decide, ?_⟩
  · unfold should_load_url
    rcases h1 : py_startswith url "http" with _ | _ <;>
      rcases h2 : py_startswith url KOLIBRI_ROOT_URL with _ | _ <;>
        simp [h1, h2]
  · unfold should_load_url
    rcases h1 : py_startswith url "http" with _ | _ <;>
      rcases h2 : py_startswith url KOLIBRI_ROOT_URL with _ | _ <;>
        simp [h1, h2]
  · intro u hu
    have hhttp : py_startswith u "http" = true := by
      unfold py_startswith at hu ⊢
      have : ("http".data).isPrefixOf u.data = true := by
        have h5 : ("http".data) <+: (KOLIBRI_ROOT_URL.data) := by decide
        have h6 : (KOLIBRI_ROOT_URL.data) <+: u.data :=
          (List.isPrefixOf_iff_prefix).1 hu
        exact (List.isPrefixOf_iff_prefix).2 (h5.trans h6)
      exact this
    unfold should_load_url
    simp [hhttp, hu]

/-- Claim C8 witness: a server-origin URL is loaded in the embedded view. -/
theorem should_load_url_spec_witness :
    (should_load_url "http://localhost:5000/learn").1 = true ∧
    (should_load_url "http://localhost:5000/learn").2 = false :=
  (should_load_url_spec "http://localhost:5000/learn").2.2.2.2
    "http://localhost:5000/learn" (by decide)

/-- Claim C2 counterexample: with locale tag `"pt_BR"`, a base-language asset
`_load-pt.html` present and no exact-tag asset, the code resolves to the
`en_US` default, not to the existing base-language asset the claim picks:
the code splits the tag on `'-'`, not at the `'_'` separator. -/
theorem resolve_loader_counterexample :
    exFS (loader_asset (base_language "pt_BR")) = true ∧
    resolve_loader exFS "pt_BR" = loader_asset "en_US" ∧
    resolve_loader_claimed exFS "pt_BR" = loader_asset "pt" ∧
    resolve_loader exFS "pt_BR" ≠ resolve_loader_claimed exFS "pt_BR" := by
  refine ⟨by decide, by decide, by decide, by decide⟩

/-- Claim C2 (amended): the fallback chain is exact tag, then the tag
truncated at its first `'-'` (the base language only for hyphen-separated
tags), then the fixed `'en_US'` default; it picks the first asset in that
order whose file exists, and the resolved path refers to an existing file
provided the default `en_US` asset exists. -/
theorem resolve_loader_amended (exists_fs : String → Bool) (lang_id : String)
    (hdefault : exists_fs (loader_asset "en_US") = true) :
    resolve_loader exists_fs lang_id =
      (([loader_asset lang_id, loader_asset (py_split_head lang_id '-')].find?
        exists_fs).getD (loader_asset "en_US")) ∧
    exists_fs (resolve_loader exists_fs lang_id) = true := by
  unfold resolve_loader
  rcases h1 : exists_fs (loader_asset lang_id) with _ | _ <;>
    rcases h2 : exists_fs (loader_asset (py_split_head lang_id '-')) with _ | _ <;>
      simp [List.find?, h1, h2, hdefault]

/-- Claim C2 witness: for the tag `"fr"` on a filesystem holding only the
default asset, resolution lands on the existing `en_US` asset. -/
theorem resolve_loader_amended_witness :
    (fun p => p == "assets/_load-en_US.html") (resolve_loader
      (fun p => p == "assets/_load-en_US.html") "fr") = true :=
  (resolve_loader_amended (fun p => p == "assets/_load-en_US.html") "fr"
    (by decide)).2

/-- Claim C4: with `fallback=True`, a missing message catalog does not raise,
so the `except` branch that is documented to "Fallback to English" never runs
for that case; `locale_info` stays empty and `setUp`'s
`locale_info['language']` raises an uncaught `KeyError`, crashing startup
before any loading page is shown — contradicting both the claim and the
code's own comment. The raising path does fall back to `'en_US'` as claimed. -/
theorem locale_missing_catalog_crashes :
    setUp_lang_id (compute_locale_info TranslationResult.missing) = none ∧
    setUp_lang_id (compute_locale_info TranslationResult.raised) = some "en_US" := by
  refine ⟨by decide, by decide⟩

/-- Claim C5: opening a window appends exactly one handle; closing removes
exactly that handle (other handles keep their multiplicity, the closed
handle's drops by one, the length drops by one); the application-level
shutdown runs exactly when the close empties the list. -/
theorem windows_invariant (ws : List Nat) (w v x : Nat)
    (hmem : w ∈ ws) (hne : v ≠ w) :
    (on_new_window ws x).length = ws.length + 1 ∧
    (shutdown_window ws w).1.length + 1 = ws.length ∧
    (shutdown_window ws w).1.count v = ws.count v ∧
    (shutdown_window ws w).1.count w + 1 = ws.count w ∧
    ((shutdown_window ws w).2 = true ↔ (shutdown_window ws w).1 = []) := by
  refine ⟨?_, ?_, ?_, ?_, ?_⟩
  · simp [on_new_window]
  · have h1 : (ws.erase w).length = ws.length - 1 := List.length_erase_of_mem hmem
    have h2 : 0 < ws.length := List.length_pos_of_mem hmem
    simp only [shutdown_window]
    omega
  · simp only [shutdown_window]
    exact List.count_erase_of_ne hne ws
  · have h1 : (ws.erase w).count w = ws.count w - 1 := List.count_erase_self w ws
    have h2 : 0 < ws.count w := List.count_pos_iff.2 hmem
    simp only [shutdown_window]
    omega
  · simp only [shutdown_window]
    exact List.isEmpty_iff

/-- Claim C5 witness: closing one of two windows does not trigger app
shutdown; the remaining handle survives. -/
theorem windows_invariant_witness :
    (shutdown_window [1, 2] 1).1.count 2 = [1, 2].count 2 ∧
    ((shutdown_window [1, 2] 1).2 = true ↔ (shutdown_window [1, 2] 1).1 = []) := by
  have h := windows_invariant [1, 2] 1 2 7 (by decide) (by decide)
  exact ⟨h.2.2.1, h.2.2.2.2⟩

/-- Claim C7: the generated source is exactly one best-effort import block
per walked file that ends in `.py` and whose dotted module path is not
matched by the exclusion list, in walk order, and no block for any excluded
or non-`.py` file. -/
theorem generate_stdlib_imports_spec (files : List String) :
    generate_stdlib_imports files =
      String.join ((files.filter
        (fun nm => py_endswith nm ".py" && !is_excluded (module_path nm))).map
        (fun nm => import_stmt (module_path nm))) := by
  unfold generate_stdlib_imports
  rw [generate_stdlib_foldl_acc files "", String.empty_append]

/-- Claim C10: on a run of `page_loaded` callbacks starting with the flag
unset, history is cleared exactly on the first callback whose URL differs
from the loader URL — never on loader-URL callbacks, never a second time —
and the flag ends set exactly when some non-loader URL was seen. -/
theorem page_loaded_clears_once (loader : String) (urls : List String) :
    (page_loaded_run loader false urls).2 = urls.any (fun u => !(u == loader)) ∧
    (page_loaded_run loader false urls).1.length = urls.length ∧
    ∀ i : Nat, ((page_loaded_run loader false urls).1[i]? = some true ↔
      ((∃ u, urls[i]? = some u ∧ u ≠ loader) ∧
        ∀ j, j < i → urls[j]? = some loader)) := by
  induction urls with
  | nil =>
    refine ⟨rfl, rfl, ?_⟩
    intro i
    simp [page_loaded_run]
  | cons u us ih =>
    rcases hu : u == loader with _ | _
    · have huv : u ≠ loader := by
        intro h
        rw [h] at hu
        simp at hu
      have hpl : page_loaded loader false u = (true, true) := by
        simp [page_loaded, hu]
      refine ⟨?_, ?_, ?_⟩
      · simp [page_loaded_run, hpl, page_loaded_run_true, hu]
      · simp [page_loaded_run, hpl, page_loaded_run_true]
      · intro i
        match i with
        | 0 =>
          simp only [page_loaded_run, hpl, page_loaded_run_true,
            List.getElem?_cons_zero]
          constructor
          · intro _
            exact ⟨⟨u, rfl, huv⟩, fun j hj => absurd hj (by omega)⟩
          · intro _
            trivial
        | i + 1 =>
          simp only [page_loaded_run, hpl, page_loaded_run_true,
            List.getElem?_cons_succ]
          constructor
          · intro h
            rcases h' : (List.replicate us.length false)[i]? with _ | b
            · rw [h'] at h
              exact absurd h (by simp)
            · rw [h'] at h
              have : b = false := by
                have := List.getElem?_mem h'
                simpa using List.eq_of_mem_replicate this
              rw [this] at h
              exact absurd h (by simp)
          · intro h
            have := h.2 0 (by omega)
            simp only [List.getElem?_cons_zero, Option.some.injEq] at this
            exact absurd this huv
    · have huv : u = loader := by
        have := (beq_iff_eq (a := u) (b := loader)).1 hu
        exact this
      have hpl : page_loaded loader false u = (false, false) := by
        simp [page_loaded, hu]
      refine ⟨?_, ?_, ?_⟩
      · simp [page_loaded_run, hpl, hu, ih.1]
      · simp [page_loaded_run, hpl, ih.2.1]
      · intro i
        match i with
        | 0 =>
          simp only [page_loaded_run, hpl, List.getElem?_cons_zero]
          constructor
          · intro h
            exact absurd h (by simp)
          · intro h
            rcases h.1 with ⟨u', hu', hne⟩
            simp only [Option.some.injEq] at hu'
            rw [← hu'] at hne
            exact absurd huv hne
        | i + 1 =>
          simp only [page_loaded_run, hpl, List.getElem?_cons_succ]
          rw [(ih.2.2 i)]
          constructor
          · intro h
            refine ⟨h.1, ?_⟩
            intro j hj
            match j with
            | 0 =>
              simp [huv]
            | j + 1 =>
              simp only [List.getElem?_cons_succ]
              exact h.2 j (by omega)
          · intro h
            refine ⟨h.1, ?_⟩
            intro j hj
            have := h.2 (j + 1) (by omega)
            simpa using this

/-- Claim C10 witness: with the loader URL first and a server URL second,
history is cleared exactly on the second callback. -/
theorem page_loaded_clears_once_witness :
    (page_loaded_run "file:///a/_load-en_US.html" false
      ["file:///a/_load-en_US.html", "http://localhost:5000/x"]).1[1]? =
      some true := by
  have h := (page_loaded_clears_once "file:///a/_load-en_US.html"
    ["file:///a/_load-en_US.html", "http://localhost:5000/x"]).2.2 1
  rw [h]
  refine ⟨⟨"http://localhost:5000/x", by decide, by decide⟩, ?_⟩
  intro j hj
  have hj0 : j = 0 := by omega
  subst hj0
  rfl

/-- Draining the buffer reproduces it: the emitted lines, each with its
newline restored, followed by the residue, concatenate back to the input;
no emitted line and no residue contains a newline. -/
theorem drainBuffer_spec_aux (n : Nat) : ∀ msg : List Char, msg.length ≤ n →
    (((drainBuffer msg).1.map (fun l => l ++ ['\n'])).flatten ++ (drainBuffer msg).2 = msg ∧
     (∀ l ∈ (drainBuffer msg).1, '\n' ∉ l) ∧
     '\n' ∉ (drainBuffer msg).2) := by
  induction n with
  | zero =>
    intro msg hlen
    have hnil : msg = [] := List.eq_nil_of_length_eq_zero (by omega)
    subst hnil
    rw [drainBuffer]
    simp
  | succ n ih =>
    intro msg hlen
    by_cases h : '\n' ∈ msg
    · have hlt : msg.findIdx (fun c => c == '\n') < msg.length :=
        List.findIdx_lt_length_of_exists ⟨'\n', h, by simp⟩
      obtain ⟨ih1, ih2, ih3⟩ := ih (msg.drop (msg.findIdx (fun c => c == '\n') + 1))
        (by simp only [List.length_drop]; omega)
      have hchar : msg[msg.findIdx (fun c => c == '\n')] = '\n' := by
        have h5 := List.findIdx_getElem (w := hlt)
        simpa using h5
      have htake : '\n' ∉ msg.take (msg.findIdx (fun c => c == '\n')) := by
        intro hmem
        obtain ⟨i, hi, hgi⟩ := List.mem_iff_getElem.1 hmem
        have hip : i < msg.findIdx (fun c => c == '\n') := by
          simp only [List.length_take] at hi
          omega
        have hfalse := List.not_of_lt_findIdx hip
        rw [List.getElem_take] at hgi
        rw [hgi] at hfalse
        simp at hfalse
      have hdecomp : msg.take (msg.findIdx (fun c => c == '\n')) ++
          '\n' :: msg.drop (msg.findIdx (fun c => c == '\n') + 1) = msg := by
        conv_rhs => rw [← List.take_append_drop (msg.findIdx (fun c => c == '\n')) msg]
        rw [List.drop_eq_getElem_cons hlt, hchar]
      rw [drainBuffer, dif_pos h]
      refine ⟨?_, ?_, ih3⟩
      · simp only [List.map_cons, List.flatten_cons, List.append_assoc,
          List.singleton_append, List.cons_append, List.nil_append]
        rw [ih1, hdecomp]
      · intro l hl
        rcases List.mem_cons.1 hl with hl | hl
        · rw [hl]
          exact htake
        · exact ih2 l hl
    · rw [drainBuffer, dif_neg h]
      exact ⟨by simp, by simp, h⟩

/-- `drainBuffer` specification, without the length bound. -/
theorem drainBuffer_spec (msg : List Char) :
    (((drainBuffer msg).1.map (fun l => l ++ ['\n'])).flatten ++ (drainBuffer msg).2 = msg ∧
     (∀ l ∈ (drainBuffer msg).1, '\n' ∉ l) ∧
     '\n' ∉ (drainBuffer msg).2) :=
  drainBuffer_spec_aux msg.length msg (Nat.le_refl _)

/-- Invariant of a run of `write` calls, from any newline-free buffer. -/
theorem runWrites_spec (msgs : List (List Char)) : ∀ b : List Char, '\n' ∉ b →
    (((runWrites ⟨b⟩ msgs).1.map (fun l => l ++ ['\n'])).flatten ++
        (runWrites ⟨b⟩ msgs).2.msg = b ++ msgs.flatten ∧
     (∀ l ∈ (runWrites ⟨b⟩ msgs).1, '\n' ∉ l) ∧
     '\n' ∉ (runWrites ⟨b⟩ msgs).2.msg) := by
  induction msgs with
  | nil =>
    intro b hb
    exact ⟨by simp [runWrites], by simp [runWrites], hb⟩
  | cons m ms ih =>
    intro b hb
    obtain ⟨h1, h2, h3⟩ := drainBuffer_spec (b ++ m)
    obtain ⟨g1, g2, g3⟩ := ih (drainBuffer (b ++ m)).2 h3
    simp only [runWrites, LoggerWriter.write, List.map_append, List.flatten_append,
      List.append_assoc, List.flatten_cons]
    refine ⟨?_, ?_, g3⟩
    · rw [g1, ← List.append_assoc, h1, List.append_assoc]
    · intro l hl
      rcases List.mem_append.1 hl with hl | hl
      · exact h2 l hl
      · exact g2 l hl

/-- Each restored line contributes exactly one newline. -/
theorem count_nl_join (ls : List (List Char)) (h : ∀ l ∈ ls, '\n' ∉ l) :
    ((ls.map (fun l => l ++ ['\n'])).flatten).count '\n' = ls.length := by
  induction ls with
  | nil => simp
  | cons l rest ih =>
    simp only [List.map_cons, List.flatten_cons, List.count_append, List.length_cons]
    have h1 : l.count '\n' = 0 := List.count_eq_zero.2 (h l (by simp))
    have h2 : (['\n'] : List Char).count '\n' = 1 := by simp
    rw [h1, h2, ih (fun x hx => h x (by simp [hx]))]
    omega

/-- Claim C9: over any sequence of `write` calls the writer is invoked
exactly once per newline of the concatenated input, in order, with each
newline-terminated segment stripped of its newline (the join equation below
forces both the order and the content); after the run the buffer is exactly
the text after the last newline and holds no newline; `flush` invokes the
writer once with the residue exactly when the buffer is non-empty, leaving
the buffer empty. -/
theorem loggerwriter_line_buffering (msgs : List (List Char)) :
    (((runWrites ⟨[]⟩ msgs).1.map (fun l => l ++ ['\n'])).flatten ++
        (runWrites ⟨[]⟩ msgs).2.msg = msgs.flatten ∧
     (∀ l ∈ (runWrites ⟨[]⟩ msgs).1, '\n' ∉ l) ∧
     '\n' ∉ (runWrites ⟨[]⟩ msgs).2.msg ∧
     (runWrites ⟨[]⟩ msgs).1.length = msgs.flatten.count '\n' ∧
     (runWrites ⟨[]⟩ msgs).2.flush =
       (if (runWrites ⟨[]⟩ msgs).2.msg = []
        then ([] : List (List Char))
        else [(runWrites ⟨[]⟩ msgs).2.msg], ⟨[]⟩)) := by
  obtain ⟨h1, h2, h3⟩ := runWrites_spec msgs [] (by simp)
  rw [List.nil_append] at h1
  refine ⟨h1, h2, h3, ?_, ?_⟩
  · rw [← h1, List.count_append, count_nl_join _ h2,
      List.count_eq_zero.2 h3]
    omega
  · rcases hst : (runWrites ⟨[]⟩ msgs).2 with ⟨mb⟩
    simp only [LoggerWriter.flush]
    by_cases hmb : mb = []
    · subst hmb
      simp
    · simp [hmb]

/-- Claim C9 witness: two writes with one newline in their concatenation
yield exactly one writer call, holding the stripped line. -/
theorem loggerwriter_line_buffering_witness :
    (runWrites ⟨[]⟩ [['a'], ['b', '\n', 'c']]).1.length =
      ([['a'], ['b', '\n', 'c']].flatten : List Char).count '\n' :=
  (loggerwriter_line_buffering [['a'], ['b', '\n', 'c']]).2.2.2.1

/-- A successful probe ends the loop at once. -/
theorem pollLoop_cons_true (rest : List Bool) (ts lr : Nat) :
    pollLoop (true :: rest) ts lr = ([Event.request], some PollOutcome.loaded) := by
  simp [pollLoop]

/-- A failed probe on an expired period below the retry cap: emit the probe
and `show_retry()`, reset the timer, bump the retry count. -/
theorem pollLoop_cons_false_wrap (rest : List Bool) (ts lr : Nat)
    (hw : ts + 1 > timeout) (hr : lr < max_retries) :
    pollLoop (false :: rest) ts lr =
      (Event.request :: Event.showRetry :: (pollLoop rest 0 (lr + 1)).1,
       (pollLoop rest 0 (lr + 1)).2) := by
  simp [pollLoop, hw, hr]

/-- A failed probe on an expired period at the retry cap: emit the probe and
`show_error()` and stop for good. -/
theorem pollLoop_cons_false_error (rest : List Bool) (ts lr : Nat)
    (hw : ts + 1 > timeout) (hr : ¬ lr < max_retries) :
    pollLoop (false :: rest) ts lr =
      ([Event.request, Event.showError], some PollOutcome.failed) := by
  simp [pollLoop, hw, hr]

/-- A failed probe within the period: emit the probe and keep counting. -/
theorem pollLoop_cons_false_tick (rest : List Bool) (ts lr : Nat)
    (hw : ¬ ts + 1 > timeout) :
    pollLoop (false :: rest) ts lr =
      (Event.request :: (pollLoop rest (ts + 1) lr).1,
       (pollLoop rest (ts + 1) lr).2) := by
  simp [pollLoop, hw]

/-- The polling loop itself never navigates. -/
theorem pollLoop_no_navigate (l : List Bool) : ∀ ts lr : Nat,
    ∀ e ∈ (pollLoop l ts lr).1, e.isNavigate = false := by
  induction l with
  | nil =>
    intro ts lr e he
    simp [pollLoop] at he
  | cons ok rest ih =>
    intro ts lr e he
    rcases ok with _ | _
    · by_cases hw : ts + 1 > timeout
      · by_cases hr : lr < max_retries
        · rw [pollLoop_cons_false_wrap rest ts lr hw hr] at he
          rcases List.mem_cons.1 he with he | he
          · rw [he]; rfl
          · rcases List.mem_cons.1 he with he | he
            · rw [he]; rfl
            · exact ih 0 (lr + 1) e he
        · rw [pollLoop_cons_false_error rest ts lr hw hr] at he
          rcases List.mem_cons.1 he with he | he
          · rw [he]; rfl
          · rcases List.mem_cons.1 he with he | he
            · rw [he]; rfl
            · simp at he
      · rw [pollLoop_cons_false_tick rest ts lr hw] at he
        rcases List.mem_cons.1 he with he | he
        · rw [he]; rfl
        · exact ih (ts + 1) lr e he
    · rw [pollLoop_cons_true rest ts lr] at he
      rcases List.mem_cons.1 he with he | he
      · rw [he]; rfl
      · simp at he

/-- One full failed period below the retry cap: `m` failed probes exhaust
the period, `show_retry()` fires once, the timer resets and the retry count
bumps. -/
theorem pollLoop_fail_period (m : Nat) : ∀ (l : List Bool) (ts lr : Nat),
    ts + m = 21 → ts ≤ timeout → lr < max_retries →
    (∀ j, j < m → l[j]? = some false) →
    pollLoop l ts lr =
      (List.replicate m Event.request ++ Event.showRetry ::
         (pollLoop (l.drop m) 0 (lr + 1)).1,
       (pollLoop (l.drop m) 0 (lr + 1)).2) := by
  induction m with
  | zero =>
    intro l ts lr hts hle _ _
    simp [timeout] at hle
    omega
  | succ m ih =>
    intro l ts lr hts hle hlr hfail
    rcases l with _ | ⟨ok, rest⟩
    · have h0 := hfail 0 (by omega)
      simp at h0
    · have hok : ok = false := by
        have h0 := hfail 0 (by omega)
        simpa using h0
      subst hok
      rcases Nat.eq_zero_or_pos m with hm | hm
      · subst hm
        have hts20 : ts = 20 := by omega
        subst hts20
        rw [pollLoop_cons_false_wrap rest 20 lr (by simp [timeout]) hlr]
        simp
      · have hw : ¬ (ts + 1 > timeout) := by
          simp only [timeout]
          omega
        rw [pollLoop_cons_false_tick rest ts lr hw]
        rw [ih rest (ts + 1) lr (by omega) (by simp only [timeout]; omega) hlr
          (fun j hj => by
            have hs := hfail (j + 1) (by omega)
            simpa using hs)]
        simp [List.replicate_succ]

/-- One full failed period at the retry cap: `m` failed probes exhaust the
period, `show_error()` fires once and polling stops permanently. -/
theorem pollLoop_fail_terminal (m : Nat) : ∀ (l : List Bool) (ts lr : Nat),
    ts + m = 21 → ts ≤ timeout → ¬ lr < max_retries →
    (∀ j, j < m → l[j]? = some false) →
    pollLoop l ts lr =
      (List.replicate m Event.request ++ [Event.showError],
       some PollOutcome.failed) := by
  induction m with
  | zero =>
    intro l ts lr hts hle _ _
    simp [timeout] at hle
    omega
  | succ m ih =>
    intro l ts lr hts hle hlr hfail
    rcases l with _ | ⟨ok, rest⟩
    · have h0 := hfail 0 (by omega)
      simp at h0
    · have hok : ok = false := by
        have h0 := hfail 0 (by omega)
        simpa using h0
      subst hok
      rcases Nat.eq_zero_or_pos m with hm | hm
      · subst hm
        have hts20 : ts = 20 := by omega
        subst hts20
        rw [pollLoop_cons_false_error rest 20 lr (by simp [timeout]) hlr]
        simp
      · have hw : ¬ (ts + 1 > timeout) := by
          simp only [timeout]
          omega
        rw [pollLoop_cons_false_tick rest ts lr hw]
        rw [ih rest (ts + 1) lr (by omega) (by simp only [timeout]; omega) hlr
          (fun j hj => by
            have hs := hfail (j + 1) (by omega)
            simpa using hs)]
        simp [List.replicate_succ]

/-- With 84 straight failed probes the loop runs four full periods and ends
in the error state with exactly the `failTrace` events. -/
theorem pollLoop_never_fail (l : List Bool)
    (hfail : ∀ j, j < 84 → l[j]? = some false) :
    pollLoop l 0 0 = (failTrace, some PollOutcome.failed) := by
  have h1 := pollLoop_fail_period 21 l 0 0 (by omega) (by simp [timeout])
    (by simp [max_retries]) (fun j hj => hfail j (by omega))
  have h2 := pollLoop_fail_period 21 (l.drop 21) 0 (0 + 1) (by omega)
    (by simp [timeout]) (by simp [max_retries])
    (fun j hj => by
      rw [List.getElem?_drop]
      exact hfail (21 + j) (by omega))
  have h3 := pollLoop_fail_period 21 ((l.drop 21).drop 21) 0 (0 + 1 + 1)
    (by omega) (by simp [timeout]) (by simp [max_retries])
    (fun j hj => by
      rw [List.getElem?_drop, List.getElem?_drop]
      exact hfail (21 + (21 + j)) (by omega))
  have h4 := pollLoop_fail_terminal 21 (((l.drop 21).drop 21).drop 21) 0
    (0 + 1 + 1 + 1) (by omega) (by simp [timeout]) (by simp [max_retries])
    (fun j hj => by
      rw [List.getElem?_drop, List.getElem?_drop, List.getElem?_drop]
      exact hfail (21 + (21 + (21 + j))) (by omega))
  rw [h1, h2, h3, h4]
  rfl

/-- Claim C1: while the server never responds (every probe within the
timeout/retry budget fails), the run with total timeout 20 and retry cap 3
probes once per one-second iteration, emits exactly one `show_retry()` at
the end of each of the first three 21-probe periods (resetting the elapsed
counter), then exactly one `show_error()` at the end of the fourth period,
stops permanently after 84 probes, and never navigates. -/
theorem wait_for_server_never_responds (l : List Bool) (ss : Option String)
    (hfail : ∀ j, j < 84 → l[j]? = some false) :
    wait_for_server l ss = (failTrace, some PollOutcome.failed) ∧
    failTrace.count Event.showRetry = 3 ∧
    failTrace.count Event.showError = 1 ∧
    failTrace.countP (fun e => e.isNavigate) = 0 ∧
    failTrace.count Event.request = 84 := by
  have hp := pollLoop_never_fail l hfail
  refine ⟨?_, by decide, by decide, by decide, by decide⟩
  unfold wait_for_server
  rw [hp]

/-- Claim C1 witness: the all-failure probe sequence of exact budget
length. -/
theorem wait_for_server_never_responds_witness :
    wait_for_server (List.replicate 84 false) none =
      (failTrace, some PollOutcome.failed) :=
  (wait_for_server_never_responds (List.replicate 84 false) none
    (fun j hj => by
      rw [List.getElem?_replicate]
      simp [hj])).1

/-- Counts along a successful poll: if the first success is probe `k` and
the retry budget is not yet spent, the loop loads, having probed `k + 1`
times, retried once per expired 21-probe period, and never errored. -/
theorem pollLoop_success (l : List Bool) : ∀ (k ts lr : Nat),
    ts ≤ timeout → lr + (ts + k) / 21 ≤ max_retries →
    (∀ j, j < k → l[j]? = some false) → l[k]? = some true →
    (pollLoop l ts lr).2 = some PollOutcome.loaded ∧
    (pollLoop l ts lr).1.count Event.request = k + 1 ∧
    (pollLoop l ts lr).1.count Event.showRetry = (ts + k) / 21 ∧
    (pollLoop l ts lr).1.count Event.showError = 0 := by
  induction l with
  | nil =>
    intro k ts lr _ _ _ hsucc
    simp at hsucc
  | cons ok rest ih =>
    intro k ts lr hts hb hfail hsucc
    match k with
    | 0 =>
      have hok : ok = true := by simpa using hsucc
      subst hok
      have hdiv : (ts + 0) / 21 = 0 := Nat.div_eq_of_lt (by simp [timeout] at hts; omega)
      rw [pollLoop_cons_true rest ts lr, hdiv]
      refine ⟨rfl, by decide, by decide, by decide⟩
    | k + 1 =>
      have hok : ok = false := by
        have h0 := hfail 0 (by omega)
        simpa using h0
      subst hok
      have hfail' : ∀ j, j < k → rest[j]? = some false := fun j hj => by
        have hs := hfail (j + 1) (by omega)
        simpa using hs
      have hsucc' : rest[k]? = some true := by simpa using hsucc
      by_cases hw : ts + 1 > timeout
      · have hts20 : ts = 20 := by
          simp [timeout] at hw hts
          omega
        subst hts20
        have h21 : 20 + (k + 1) = k + 21 := by omega
        have hdiv : (20 + (k + 1)) / 21 = k / 21 + 1 := by
          rw [h21, Nat.add_div_right _ (by omega)]
        have hlr : lr < max_retries := by
          rw [hdiv] at hb
          simp [max_retries] at hb ⊢
          omega
        have hb' : (lr + 1) + (0 + k) / 21 ≤ max_retries := by
          rw [hdiv] at hb
          rw [Nat.zero_add]
          simp [max_retries] at hb ⊢
          omega
        obtain ⟨h1, h2, h3, h4⟩ := ih k 0 (lr + 1) (by simp [timeout]) hb'
          hfail' hsucc'
        rw [pollLoop_cons_false_wrap rest 20 lr hw hlr]
        rw [Nat.zero_add] at h3
        refine ⟨h1, ?_, ?_, ?_⟩
        · simp only [List.count_cons]
          rw [h2]
          simp
        · simp only [List.count_cons]
          rw [h3, hdiv]
          simp
        · simp only [List.count_cons]
          rw [h4]
          simp
      · have hts' : ts + 1 ≤ timeout := by
          simp [timeout] at hw ⊢
          omega
        have hb' : lr + ((ts + 1) + k) / 21 ≤ max_retries := by
          have hshift : (ts + 1) + k = ts + (k + 1) := by omega
          rw [hshift]
          exact hb
        obtain ⟨h1, h2, h3, h4⟩ := ih k (ts + 1) lr hts' hb' hfail' hsucc'
        rw [pollLoop_cons_false_tick rest ts lr hw]
        have hshift : (ts + 1) + k = ts + (k + 1) := by omega
        rw [hshift] at h3
        refine ⟨h1, ?_, ?_, ?_⟩
        · simp only [List.count_cons]
          rw [h2]
          simp
        · simp only [List.count_cons]
          rw [h3]
          simp
        · simp only [List.count_cons]
          rw [h4]
          simp

/-- Claim C6: if some probe within the timeout/retry budget succeeds (the
first success being probe `k`, `k ≤ 83` — the 84-probe budget not yet
exhausted), the poller reaches the loaded state: polling stops, exactly one
navigation to the live application is issued, `show_retry()` fired exactly
once per fully elapsed 21-probe period (`k / 21` of them) and
`show_error()` never fires. -/
theorem wait_for_server_success (l : List Bool) (ss : Option String) (k : Nat)
    (hk : k ≤ 83)
    (hfail : ∀ j, j < k → l[j]? = some false)
    (hsucc : l[k]? = some true) :
    (wait_for_server l ss).2 = some PollOutcome.loaded ∧
    (wait_for_server l ss).1.countP (fun e => e.isNavigate) = 1 ∧
    (wait_for_server l ss).1.count Event.showRetry = k / 21 ∧
    (wait_for_server l ss).1.count Event.showError = 0 ∧
    (wait_for_server l ss).1.count Event.request = k + 1 := by
  have hb : 0 + (0 + k) / 21 ≤ max_retries := by
    simp only [Nat.zero_add, max_retries]
    calc k / 21 ≤ 83 / 21 := Nat.div_le_div_right hk
    _ = 3 := by norm_num
  obtain ⟨h1, h2, h3, h4⟩ := pollLoop_success l k 0 0 (by simp [timeout]) hb
    hfail hsucc
  rw [Nat.zero_add] at h3
  rcases hp : pollLoop l 0 0 with ⟨evs, r⟩
  rw [hp] at h1 h2 h3 h4
  have hr : r = some PollOutcome.loaded := h1
  subst hr
  have hw : wait_for_server l ss =
      (evs ++ [Event.navigate (navigationTarget ss)],
       some PollOutcome.loaded) := by
    unfold wait_for_server
    rw [hp]
  have hz : evs.countP (fun e => e.isNavigate) = 0 :=
    List.countP_eq_zero.2 (fun e he => by
      have hnav := pollLoop_no_navigate l 0 0 e (by rw [hp]; exact he)
      simp [hnav])
  refine ⟨by rw [hw], ?_, ?_, ?_, ?_⟩
  · rw [hw]
    simp only [List.countP_append, hz]
    simp [Event.isNavigate]
  · rw [hw]
    simp only [List.count_append]
    rw [h3]
    simp [List.count_singleton]
  · rw [hw]
    simp only [List.count_append]
    rw [h4]
    simp [List.count_singleton]
  · rw [hw]
    simp only [List.count_append]
    rw [h2]
    simp [List.count_singleton]

/-- Claim C6 witness: the server answers the first probe. -/
theorem wait_for_server_success_witness :
    (wait_for_server [true] (some "http://localhost:5000/learn")).2 =
      some PollOutcome.loaded ∧
    (wait_for_server [true] (some "http://localhost:5000/learn")).1.countP
      (fun e => e.isNavigate) = 1 := by
  have h := wait_for_server_success [true]
    (some "http://localhost:5000/learn") 0 (by omega)
    (fun j hj => absurd hj (by omega)) rfl
  exact ⟨h.1, h.2.1⟩

/-- Claim C3: when the poll succeeds, exactly one navigation is issued,
appended after the loop events: to the saved URL when the saved view state
holds one matching the server origin, and to the base URL in every other
case. -/
theorem wait_for_server_navigation (l : List Bool) (ss : Option String)
    (h : (pollLoop l 0 0).2 = some PollOutcome.loaded) :
    wait_for_server l ss =
      ((pollLoop l 0 0).1 ++ [Event.navigate (navigationTarget ss)],
       some PollOutcome.loaded) ∧
    (wait_for_server l ss).1.countP (fun e => e.isNavigate) = 1 ∧
    (∀ u, ss = some u → py_startswith u KOLIBRI_ROOT_URL = true →
      navigationTarget ss = u) ∧
    (∀ u, ss = some u → py_startswith u KOLIBRI_ROOT_URL = false →
      navigationTarget ss = KOLIBRI_ROOT_URL) ∧
    (ss = none → navigationTarget ss = KOLIBRI_ROOT_URL) := by
  rcases hp : pollLoop l 0 0 with ⟨evs, r⟩
  rw [hp] at h
  have hr : r = some PollOutcome.loaded := h
  subst hr
  have hw : wait_for_server l ss =
      (evs ++ [Event.navigate (navigationTarget ss)],
       some PollOutcome.loaded) := by
    unfold wait_for_server
    rw [hp]
  have hz : evs.countP (fun e => e.isNavigate) = 0 :=
    List.countP_eq_zero.2 (fun e he => by
      have hnav := pollLoop_no_navigate l 0 0 e (by rw [hp]; exact he)
      simp [hnav])
  refine ⟨by rw [hw], ?_, ?_, ?_, ?_⟩
  · rw [hw]
    simp only [List.countP_append, hz]
    simp [Event.isNavigate]
  · intro u hss hstart
    subst hss
    simp [navigationTarget, hstart]
  · intro u hss hstart
    subst hss
    simp [navigationTarget, hstart]
  · intro hss
    subst hss
    rfl

/-- Claim C3 witness: no saved URL — the single navigation goes to the base
URL. -/
theorem wait_for_server_navigation_witness :
    wait_for_server [true] none =
      ([Event.request, Event.navigate KOLIBRI_ROOT_URL],
       some PollOutcome.loaded) := by
  have h := (wait_for_server_navigation [true] none rfl).1
  simpa using h
